import Mathlib

/-!
Shallow embedding of `src/utils/matchUrl.js` from redux-first-router.

The module exports a single function `matchUrl(l, matchers, options)` that
matches a location (raw URL string or `{pathname, search, hash}` object)
against a matcher descriptor `{path, query?, hash?}`.  It relies on three
external collaborators, treated as opaque capabilities exactly as the module
treats them (they are imported libraries / code outside this file):
`path-to-regexp`, `query-string`'s `qs.parse`, and `parsePath` from
`../history/utils`.  These are gathered into a `Caps` structure over which
everything is parameterised.

The module-level mutable state (`queries` parse cache, `patternCache`,
`cacheCount`) is made explicit as a `ModuleState` threaded through every
function.  JavaScript objects used as string-keyed dictionaries are modelled
as association lists with first-match lookup and in-place overwrite.
-/

namespace MatchUrl

/-- First-match lookup in a string-keyed association list
(JS `obj[key]`, `undefined` when absent → `none`). -/
def alookup {α : Type} : List (String × α) → String → Option α
  | [], _ => none
  | (k, v) :: rest, key => if k = key then some v else alookup rest key

/-- Overwrite-or-append assignment in a string-keyed association list
(JS `obj[key] = v`). -/
def aset {α : Type} : List (String × α) → String → α → List (String × α)
  | [], key, v => [(key, v)]
  | (k, w) :: rest, key, v =>
      if k = key then (k, v) :: rest else (k, w) :: aset rest key v

/-- `Location`: the decomposed URL `{ pathname, search, hash }`. -/
structure Location where
  pathname : String
  search : String
  hash : String

/-- A `ValueMatcher`: the runtime shapes `matchVal` dispatches on.  `other`
stands for any further JS value (number, object, `null`, ...), recording only
its JS truthiness, which is all the module ever observes of it. -/
inductive ValueMatcher where
  | bool (b : Bool)
  | str (s : String)
  | fn (f : Option String → Bool)
  | regex (test : Option String → Bool)
  | other (truthy : Bool)

/-- JS truthiness of a `ValueMatcher` value (used by the `matchers.hash &&`
guard in `matchUrl`): `false` and `""` are falsy, functions and RegExp
objects truthy. -/
def ValueMatcher.truthy : ValueMatcher → Bool
  | .bool b => b
  | .str s => s ≠ ""
  | .fn _ => true
  | .regex _ => true
  | .other t => t

/-- The matcher descriptor `{ path, query?, hash? }`. -/
structure Matchers where
  path : String
  query : Option (List (String × ValueMatcher))
  hash : Option ValueMatcher

/-- A compiled pattern `{ re, keys }`: the regexp is modelled by its `exec`
behaviour (`null`, or matched substring at index 0 plus captures), `keys` by
the capture names. -/
structure Compiled where
  re : String → Option (String × List (Option String))
  keys : List String

/-- Options accepted by `matchUrl` (`partial`, `strict`, `transform`).
The JS field `partial` is named `partialFlag` here. -/
structure MatchOptions where
  partialFlag : Bool
  strict : Bool
  transform : Option (Option String → String → String)

/-- Options read by `compilePath` (the `partial` / `strict` subset). -/
structure CompileOptions where
  partialFlag : Bool
  strict : Bool
deriving DecidableEq

/-- The opaque external collaborators: `pathToRegexp pattern end strict`
(returning the regexp together with the keys it pushed), `qs.parse`, and
`parsePath`. -/
structure Caps where
  pathToRegexp : String → Bool → Bool → Compiled
  qsParse : String → List (String × String)
  parsePath : String → Location

/-- The module-level mutable state: the `queries` parse cache, the two-level
`patternCache`, and `cacheCount`. -/
structure ModuleState where
  queries : List (String × List (String × String))
  patternCache : List (String × List (String × Compiled))
  cacheCount : Nat

/-- `const cacheLimit = 10000`. -/
def cacheLimit : Nat := 10000

/-- The bucket key: `` `${partial ? 't' : 'f'}${strict ? 't' : 'f'}` ``. -/
def cacheKeyOf (partialFlag strict : Bool) : String :=
  (if partialFlag then "t" else "f") ++ (if strict then "t" else "f")

/-- `compilePath(pattern, options)`: two-level cache lookup; on a miss the
pattern is compiled via `pathToRegexp(pattern, keys, { end: !partial, strict })`
and cached only while `cacheCount < cacheLimit`. -/
def compilePath (caps : Caps) (pattern : String) (options : CompileOptions)
    (st : ModuleState) : Compiled × ModuleState :=
  let ck := cacheKeyOf options.partialFlag options.strict
  let bp :=
    match alookup st.patternCache ck with
    | some b => (b, st.patternCache)
    | none => ([], aset st.patternCache ck [])
  match alookup bp.1 pattern with
  | some c => (c, ⟨st.queries, bp.2, st.cacheCount⟩)
  | none =>
      let c := caps.pathToRegexp pattern (!options.partialFlag) options.strict
      if st.cacheCount < cacheLimit then
        (c, ⟨st.queries, aset bp.2 ck (aset bp.1 pattern c), st.cacheCount + 1⟩)
      else
        (c, ⟨st.queries, bp.2, st.cacheCount⟩)

/-- `matchPath(path, matcher, options)`: compile then `re.exec(path)`. -/
def matchPath (caps : Caps) (path : String) (matcher : String)
    (options : CompileOptions) (st : ModuleState) :
    (Option (String × List (Option String)) × List String) × ModuleState :=
  let cst := compilePath caps matcher options st
  ((cst.1.re path, cst.1.keys), cst.2)

/-- `parseSearch(search)`: memoised `qs.parse`. -/
def parseSearch (caps : Caps) (search : String) (st : ModuleState) :
    List (String × String) × ModuleState :=
  match alookup st.queries search with
  | some q => (q, st)
  | none =>
      let q := caps.qsParse search
      (q, ⟨aset st.queries search q, st.patternCache, st.cacheCount⟩)

/-- `matchVal(val, expected)`: shape dispatch on the expected matcher. -/
def matchVal (val : Option String) (expected : ValueMatcher) : Bool :=
  match expected with
  | .bool _ => val != some "" && val != none
  | .str s => some s == val
  | .fn f => f val
  | .regex test => test val
  | .other _ => true

/-- `matchQuery(search, matcher)`: parse (empty search short-circuits to `{}`),
succeed if no matcher map, otherwise every declared key must pass `matchVal`. -/
def matchQuery (caps : Caps) (search : String)
    (matcher : Option (List (String × ValueMatcher))) (st : ModuleState) :
    Option (List (String × String)) × ModuleState :=
  let qst := if search = "" then (([] : List (String × String)), st)
             else parseSearch caps search st
  match matcher with
  | none => (some qst.1, qst.2)
  | some m =>
      if m.all (fun kv => matchVal (alookup qst.1 kv.1) kv.2) then
        (some qst.1, qst.2)
      else
        (none, qst.2)

/-- The result object assembled on a successful match. -/
structure MatchResult where
  params : Option (List (String × String))
  query : List (String × String)
  hash : String
  matchedPath : String
  matchers : Matchers
  partialFlag : Bool

/-- `keys.reduce((params, key, index) => { params[key.name] = transform(values[index], key.name); return params }, {})`. -/
def buildParams (transform : Option String → String → String)
    (keys : List String) (values : List (Option String)) :
    List (String × String) :=
  keys.enum.foldl (fun ps ik => aset ps ik.2 (transform (values[ik.1]?).join ik.2)) []

/-- `typeof l === 'string' ? parsePath(l) : l`. -/
def resolveLoc (caps : Caps) : String ⊕ Location → Location
  | .inl s => caps.parsePath s
  | .inr loc => loc

/-- The default export `matchUrl(l, matchers, options)`. -/
def matchUrl (caps : Caps) (l : String ⊕ Location) (matchers : Matchers)
    (options : MatchOptions) (st : ModuleState) :
    Option MatchResult × ModuleState :=
  let loc := resolveLoc caps l
  let mp := matchPath caps loc.pathname matchers.path
    ⟨options.partialFlag, options.strict⟩ st
  match mp.1.1 with
  | none => (none, mp.2)
  | some mtch =>
      let q := matchQuery caps loc.search matchers.query mp.2
      match q.1 with
      | none => (none, q.2)
      | some query =>
          if (match matchers.hash with
              | some vm => vm.truthy && !(matchVal (some loc.hash) vm)
              | none => false) then
            (none, q.2)
          else
            let params := options.transform.map
              (fun tf => buildParams tf mp.1.2 mtch.2)
            (some ⟨params, query, loc.hash,
                   if matchers.path = "/" && mtch.1 = "" then "/" else mtch.1,
                   matchers, options.partialFlag⟩, q.2)

/-- Lookup of a pattern in the bucket its compile options select. -/
def bucketLookup (st : ModuleState) (p : String) (o : CompileOptions) :
    Option Compiled :=
  match alookup st.patternCache (cacheKeyOf o.partialFlag o.strict) with
  | some b => alookup b p
  | none => none

/-- A module state is valid for the given capabilities when every cache entry
agrees with what the capability would produce: every cached parse equals
`qsParse` of its key, and every cached compiled pattern equals what
`pathToRegexp` yields for its pattern under the bucket's option pair.  Every
state reachable by running the module's operations from the pristine state is
valid. -/
def ValidState (caps : Caps) (st : ModuleState) : Prop :=
  (∀ s q, alookup st.queries s = some q → q = caps.qsParse s) ∧
  (∀ (o : CompileOptions) (p : String) (c : Compiled),
    bucketLookup st p o = some c →
    c = caps.pathToRegexp p (!o.partialFlag) o.strict)

/-! ### Concrete instances used by the witnesses -/

/-- A simple concrete capability set: the compiler matches the literal
pattern (no captures), the query parser maps the raw string to itself under
one key, the URL decomposition puts everything in `pathname`. -/
def capsEx : Caps :=
  ⟨fun pattern _ _ => ⟨fun p => if p = pattern then some (p, []) else none, []⟩,
   fun s => [("raw", s)],
   fun s => ⟨s, "", ""⟩⟩

/-- A capability set whose compiled patterns match any path with an empty
matched substring (as `path-to-regexp` does for pattern `"/"` in non-strict
partial-like situations with an empty input). -/
def capsSlash : Caps :=
  ⟨fun _ _ _ => ⟨fun _ => some ("", []), []⟩,
   fun s => [("raw", s)],
   fun s => ⟨s, "", ""⟩⟩

/-- A capability set with one named capture key `id`, capturing the whole
path. -/
def capsKey : Caps :=
  ⟨fun _ _ _ => ⟨fun p => some (p, [some p]), ["id"]⟩,
   fun s => [("raw", s)],
   fun s => ⟨s, "", ""⟩⟩

/-- The pristine module state: empty caches, counter zero. -/
def st0 : ModuleState := ⟨[], [], 0⟩

/-- A module state whose counter already sits at the cache ceiling. -/
def stFull : ModuleState := ⟨[], [], cacheLimit⟩

/-- Default `matchUrl` options: `partial`/`strict` false, no transform. -/
def mo0 : MatchOptions := ⟨false, false, none⟩

/-- Default compile options. -/
def co0 : CompileOptions := ⟨false, false⟩

/-! ### Association-list lemmas -/

@[simp]
theorem alookup_nil {α : Type} (k : String) :
    alookup ([] : List (String × α)) k = none := rfl

theorem alookup_aset {α : Type} (l : List (String × α)) (k : String) (v : α)
    (k' : String) :
    alookup (aset l k v) k' = if k = k' then some v else alookup l k' := by
  induction l with
  | nil => simp [aset, alookup]
  | cons hd tl ih =>
      obtain ⟨hk, hv⟩ := hd
      by_cases h1 : hk = k <;> by_cases h2 : k = k' <;>
        simp_all [aset, alookup]

theorem cacheKeyOf_inj {a b a' b' : Bool}
    (h : cacheKeyOf a b = cacheKeyOf a' b') : a = a' ∧ b = b' := by
  revert h; cases a <;> cases b <;> cases a' <;> cases b' <;> decide

theorem bucketLookup_eq_of_some {st : ModuleState} {o : CompileOptions}
    {b : List (String × Compiled)} (p : String)
    (h1 : alookup st.patternCache (cacheKeyOf o.partialFlag o.strict) = some b) :
    bucketLookup st p o = alookup b p := by
  unfold bucketLookup; rw [h1]

theorem bucketLookup_eq_of_none {st : ModuleState} {o : CompileOptions}
    (p : String)
    (h1 : alookup st.patternCache (cacheKeyOf o.partialFlag o.strict) = none) :
    bucketLookup st p o = none := by
  unfold bucketLookup; rw [h1]

/-! ### `compilePath` characterization -/

theorem compilePath_fst_hit (caps : Caps) (p : String) (o : CompileOptions)
    (st : ModuleState) (c : Compiled) (h : bucketLookup st p o = some c) :
    (compilePath caps p o st).1 = c := by
  unfold compilePath
  cases h1 : alookup st.patternCache (cacheKeyOf o.partialFlag o.strict) with
  | some b =>
      rw [bucketLookup_eq_of_some p h1] at h
      simp [h1, h]
  | none => rw [bucketLookup_eq_of_none p h1] at h; cases h

theorem compilePath_fst_miss (caps : Caps) (p : String) (o : CompileOptions)
    (st : ModuleState) (h : bucketLookup st p o = none) :
    (compilePath caps p o st).1 =
      caps.pathToRegexp p (!o.partialFlag) o.strict := by
  unfold compilePath
  cases h1 : alookup st.patternCache (cacheKeyOf o.partialFlag o.strict) with
  | some b =>
      rw [bucketLookup_eq_of_some p h1] at h
      by_cases h3 : st.cacheCount < cacheLimit <;> simp [h1, h, h3]
  | none => by_cases h3 : st.cacheCount < cacheLimit <;> simp [h1, h3]

theorem compilePath_snd_queries (caps : Caps) (p : String) (o : CompileOptions)
    (st : ModuleState) :
    (compilePath caps p o st).2.queries = st.queries := by
  unfold compilePath
  cases h1 : alookup st.patternCache (cacheKeyOf o.partialFlag o.strict) with
  | some b =>
      cases h2 : alookup b p with
      | some c => simp [h1, h2]
      | none => by_cases h3 : st.cacheCount < cacheLimit <;> simp [h1, h2, h3]
  | none => by_cases h3 : st.cacheCount < cacheLimit <;> simp [h1, h3]

theorem compilePath_snd_hit (caps : Caps) (p : String) (o : CompileOptions)
    (st : ModuleState) (c : Compiled) (h : bucketLookup st p o = some c) :
    (compilePath caps p o st).2 = st := by
  unfold compilePath
  cases h1 : alookup st.patternCache (cacheKeyOf o.partialFlag o.strict) with
  | some b =>
      rw [bucketLookup_eq_of_some p h1] at h
      simp [h1, h]
  | none => rw [bucketLookup_eq_of_none p h1] at h; cases h

theorem compilePath_count_miss_lt (caps : Caps) (p : String)
    (o : CompileOptions) (st : ModuleState) (h : bucketLookup st p o = none)
    (h3 : st.cacheCount < cacheLimit) :
    (compilePath caps p o st).2.cacheCount = st.cacheCount + 1 := by
  unfold compilePath
  cases h1 : alookup st.patternCache (cacheKeyOf o.partialFlag o.strict) with
  | some b =>
      rw [bucketLookup_eq_of_some p h1] at h
      simp [h1, h, h3]
  | none => simp [h1, h3]

theorem compilePath_count_ge (caps : Caps) (p : String) (o : CompileOptions)
    (st : ModuleState) (h3 : ¬ st.cacheCount < cacheLimit) :
    (compilePath caps p o st).2.cacheCount = st.cacheCount := by
  unfold compilePath
  cases h1 : alookup st.patternCache (cacheKeyOf o.partialFlag o.strict) with
  | some b =>
      cases h2 : alookup b p with
      | some c => simp [h1, h2]
      | none => simp [h1, h2, h3]
  | none => simp [h1, h3]

theorem bucketLookup_compilePath_self (caps : Caps) (p : String)
    (o : CompileOptions) (st : ModuleState) (h : bucketLookup st p o = none)
    (h3 : st.cacheCount < cacheLimit) :
    bucketLookup (compilePath caps p o st).2 p o =
      some (caps.pathToRegexp p (!o.partialFlag) o.strict) := by
  unfold compilePath
  cases h1 : alookup st.patternCache (cacheKeyOf o.partialFlag o.strict) with
  | some b =>
      rw [bucketLookup_eq_of_some p h1] at h
      simp [h1, h, h3, bucketLookup, alookup_aset]
  | none => simp [h1, h3, bucketLookup, alookup_aset]

theorem bucketLookup_compilePath_none_ge (caps : Caps) (p : String)
    (o : CompileOptions) (st : ModuleState) (h : bucketLookup st p o = none)
    (h3 : ¬ st.cacheCount < cacheLimit) :
    bucketLookup (compilePath caps p o st).2 p o = none := by
  unfold compilePath
  cases h1 : alookup st.patternCache (cacheKeyOf o.partialFlag o.strict) with
  | some b =>
      rw [bucketLookup_eq_of_some p h1] at h
      simp [h1, h, h3, bucketLookup, alookup_aset]
  | none => simp [h1, h3, bucketLookup, alookup_aset]

theorem bucketLookup_compilePath_frame (caps : Caps) (p : String)
    (o : CompileOptions) (st : ModuleState) (p' : String) (o' : CompileOptions)
    (hne : ¬ (p' = p ∧ o' = o)) :
    bucketLookup (compilePath caps p o st).2 p' o' = bucketLookup st p' o' := by
  by_cases hck : cacheKeyOf o'.partialFlag o'.strict =
      cacheKeyOf o.partialFlag o.strict
  · have ho : o' = o := by
      obtain ⟨ha, hb⟩ := cacheKeyOf_inj hck
      cases o'; cases o; simp_all
    subst ho
    have hp : ¬ p' = p := fun hp => hne ⟨hp, rfl⟩
    have hp2 : ¬ p = p' := fun hpp => hp hpp.symm
    unfold compilePath
    cases h1 : alookup st.patternCache (cacheKeyOf o'.partialFlag o'.strict) with
    | some b =>
        cases h2 : alookup b p with
        | some c => simp [bucketLookup, h1, h2]
        | none =>
            by_cases h3 : st.cacheCount < cacheLimit <;>
              simp [h1, h2, h3, bucketLookup, alookup_aset, hp2]
    | none =>
        by_cases h3 : st.cacheCount < cacheLimit <;>
          simp [h1, h3, bucketLookup, alookup_aset, hp2]
  · unfold compilePath
    have hck2 : ¬ cacheKeyOf o.partialFlag o.strict =
        cacheKeyOf o'.partialFlag o'.strict := fun he => hck he.symm
    cases h1 : alookup st.patternCache (cacheKeyOf o.partialFlag o.strict) with
    | some b =>
        cases h2 : alookup b p with
        | some c => simp [bucketLookup, h1, h2]
        | none =>
            by_cases h3 : st.cacheCount < cacheLimit <;>
              simp [h1, h2, h3, bucketLookup, alookup_aset, hck2]
    | none =>
        by_cases h3 : st.cacheCount < cacheLimit <;>
          simp [h1, h3, bucketLookup, alookup_aset, hck2]

/-! ### `matchPath`, `parseSearch`, `matchQuery` basics -/

theorem matchPath_fst (caps : Caps) (path m : String) (o : CompileOptions)
    (st : ModuleState) :
    (matchPath caps path m o st).1 =
      ((compilePath caps m o st).1.re path, (compilePath caps m o st).1.keys) :=
  rfl

theorem matchPath_snd (caps : Caps) (path m : String) (o : CompileOptions)
    (st : ModuleState) :
    (matchPath caps path m o st).2 = (compilePath caps m o st).2 := rfl

theorem parseSearch_snd_patternCache (caps : Caps) (s : String)
    (st : ModuleState) :
    (parseSearch caps s st).2.patternCache = st.patternCache := by
  unfold parseSearch
  cases h : alookup st.queries s <;> simp [h]

theorem parseSearch_snd_cacheCount (caps : Caps) (s : String)
    (st : ModuleState) :
    (parseSearch caps s st).2.cacheCount = st.cacheCount := by
  unfold parseSearch
  cases h : alookup st.queries s <;> simp [h]

theorem matchQuery_snd (caps : Caps) (s : String)
    (m : Option (List (String × ValueMatcher))) (st : ModuleState) :
    (matchQuery caps s m st).2 =
      if s = "" then st else (parseSearch caps s st).2 := by
  unfold matchQuery
  cases m with
  | none => by_cases hs : s = "" <;> simp [hs]
  | some mm => by_cases hs : s = "" <;> simp [hs, apply_ite]

/-! ### Claim C1: path failure short-circuits -/

/-- Claim C1: for every location and matcher descriptor, when the compiled
pattern's execution against the path yields null, `matchUrl` returns null,
and the query parse cache is untouched — the query string is never parsed
and neither the query matcher nor the hash matcher can influence anything. -/
theorem matchUrl_path_fail_fast (caps : Caps) (l : String ⊕ Location)
    (matchers : Matchers) (options : MatchOptions) (st : ModuleState)
    (hfail : ((compilePath caps matchers.path
        ⟨options.partialFlag, options.strict⟩ st).1).re
        (resolveLoc caps l).pathname = none) :
    (matchUrl caps l matchers options st).1 = none ∧
    (matchUrl caps l matchers options st).2.queries = st.queries := by
  unfold matchUrl
  simp [matchPath_fst, matchPath_snd, hfail, compilePath_snd_queries]

/-- Witness for C1: pattern `/a` against path `/b` fails, `matchUrl` yields
null and the query-parse cache stays empty even though a query string is
present. -/
theorem matchUrl_path_fail_fast_witness :
    (matchUrl capsEx (Sum.inr ⟨"/b", "x=1", "h"⟩) ⟨"/a", none, none⟩ mo0
      st0).1 = none ∧
    (matchUrl capsEx (Sum.inr ⟨"/b", "x=1", "h"⟩) ⟨"/a", none, none⟩ mo0
      st0).2.queries = st0.queries :=
  matchUrl_path_fail_fast capsEx (Sum.inr ⟨"/b", "x=1", "h"⟩)
    ⟨"/a", none, none⟩ mo0 st0 rfl

/-! ### Claim C4: boolean value matchers only test presence / non-blank -/

/-- Claim C4: `matchVal` against a boolean expected matcher (either `true` or
`false`) holds iff the observed value is present (not `undefined`) and not the
empty string; the boolean's own value is irrelevant.  In particular expected
`true` against observed `""` fails and expected `false` against observed
`"x"` passes. -/
theorem matchVal_bool_presence (v : Option String) (b b' : Bool) :
    (matchVal v (ValueMatcher.bool b) = true ↔ v ≠ none ∧ v ≠ some "") ∧
    matchVal v (ValueMatcher.bool b) = matchVal v (ValueMatcher.bool b') ∧
    matchVal (some "") (ValueMatcher.bool true) = false ∧
    matchVal (some "x") (ValueMatcher.bool false) = true := by
  refine ⟨?_, rfl, rfl, rfl⟩
  simp [matchVal, and_comm]

/-! ### Claim C3: hash matching (corrected — falsy hash matchers are skipped) -/

/-- Counterexample to C3 as stated: the hash field is supplied (the empty
string, a ValueMatcher), its Value-Matcher test against fragment `"sec"`
fails, yet `matchUrl` succeeds: the source guards the hash check with JS
truthiness (`matchers.hash && ...`), so falsy matchers like `""` (and
`false`) are skipped, not run. -/
theorem matchUrl_hash_falsy_skipped_counterexample :
    matchVal (some "sec") (ValueMatcher.str "") = false ∧
    (matchUrl capsEx (Sum.inr ⟨"/a", "", "sec"⟩)
      ⟨"/a", none, some (ValueMatcher.str "")⟩ mo0 st0).1.isSome = true :=
  ⟨rfl, rfl⟩

/-- Claim C3 amended: for every matcher descriptor whose hash field is
supplied **and JS-truthy** (so not `false` and not the empty string),
`matchUrl` returns null whenever the Value Matcher fails against the
location's fragment. -/
theorem matchUrl_hash_truthy_fail (caps : Caps) (l : String ⊕ Location)
    (matchers : Matchers) (options : MatchOptions) (st : ModuleState)
    (vm : ValueMatcher) (hsup : matchers.hash = some vm)
    (ht : vm.truthy = true)
    (hfail : matchVal (some (resolveLoc caps l).hash) vm = false) :
    (matchUrl caps l matchers options st).1 = none := by
  unfold matchUrl
  cases hre : ((compilePath caps matchers.path
      ⟨options.partialFlag, options.strict⟩ st).1).re
      (resolveLoc caps l).pathname with
  | none => simp [matchPath_fst, matchPath_snd, hre]
  | some mtch =>
      cases hq : (matchQuery caps (resolveLoc caps l).search matchers.query
          (compilePath caps matchers.path
            ⟨options.partialFlag, options.strict⟩ st).2).1 with
      | none => simp [matchPath_fst, matchPath_snd, hre, hq]
      | some query => simp [matchPath_fst, matchPath_snd, hre, hq, hsup, ht,
          hfail]

/-- Witness for the amended C3: hash matcher `"sec"` (truthy) against
fragment `"other"` fails the Value Matcher and `matchUrl` returns null. -/
theorem matchUrl_hash_truthy_fail_witness :
    (matchUrl capsEx (Sum.inr ⟨"/a", "", "other"⟩)
      ⟨"/a", none, some (ValueMatcher.str "sec")⟩ mo0 st0).1 = none :=
  matchUrl_hash_truthy_fail capsEx (Sum.inr ⟨"/a", "", "other"⟩)
    ⟨"/a", none, some (ValueMatcher.str "sec")⟩ mo0 st0
    (ValueMatcher.str "sec") rfl (by decide) (by decide)

/-! ### Claim C2: `matchQuery` semantics -/

theorem matchQuery_fst (caps : Caps) (s : String)
    (m : Option (List (String × ValueMatcher))) (st : ModuleState) :
    (matchQuery caps s m st).1 =
      match m with
      | none => some (if s = "" then [] else (parseSearch caps s st).1)
      | some mm =>
          if mm.all (fun kv => matchVal
              (alookup (if s = "" then [] else (parseSearch caps s st).1) kv.1)
              kv.2)
          then some (if s = "" then [] else (parseSearch caps s st).1)
          else none := by
  have hq : (if s = "" then (([] : List (String × String)), st)
      else parseSearch caps s st).1 =
      (if s = "" then [] else (parseSearch caps s st).1) := by
    by_cases hs : s = "" <;> simp [hs]
  simp only [matchQuery]
  cases m with
  | none => simp only [hq]
  | some mm => rw [apply_ite Prod.fst, hq]

/-- Claim C2: `matchQuery qs m` returns null iff `m` is supplied and at least
one declared key fails its ValueMatcher test against the corresponding
parsed value (`undefined` when absent); otherwise it returns the full parsed
query mapping; with no matcher map it succeeds unconditionally; an empty
query string yields the empty mapping and touches neither the cache nor the
parser (the module state is unchanged). -/
theorem matchQuery_null_iff (caps : Caps) (search : String)
    (m : Option (List (String × ValueMatcher))) (st : ModuleState) :
    ((matchQuery caps search m st).1 = none ↔
      ∃ mm, m = some mm ∧ ∃ kv ∈ mm,
        matchVal (alookup (if search = "" then [] else
          (parseSearch caps search st).1) kv.1) kv.2 = false) ∧
    (m = none → (matchQuery caps search m st).1 =
      some (if search = "" then [] else (parseSearch caps search st).1)) ∧
    ((matchQuery caps search m st).1 ≠ none →
      (matchQuery caps search m st).1 =
        some (if search = "" then [] else (parseSearch caps search st).1)) ∧
    (search = "" → (matchQuery caps search m st).2 = st) := by
  cases m with
  | none =>
      simp only [matchQuery_fst, matchQuery_snd]
      exact ⟨by simp, fun _ => by simp, fun _ => by simp, fun hs => by simp [hs]⟩
  | some mm =>
      simp only [matchQuery_fst, matchQuery_snd]
      by_cases hall : (mm.all fun kv => matchVal
          (alookup (if search = "" then [] else (parseSearch caps search st).1)
            kv.1) kv.2) = true
      · refine ⟨?_, by simp, fun _ => by simp [hall], fun hs => by simp [hs]⟩
        simp only [hall, if_true]
        constructor
        · intro h; exact absurd h (by simp)
        · rintro ⟨mm', heq, kv, hmem, hfail⟩
          cases heq
          have hpass := (List.all_eq_true.mp hall) kv hmem
          rw [hfail] at hpass
          cases hpass
      · refine ⟨?_, by simp, ?_, fun hs => by simp [hs]⟩
        · simp only [if_neg hall]
          constructor
          · intro _
            refine ⟨mm, rfl, ?_⟩
            have hnot : ¬ ∀ kv ∈ mm, matchVal
                (alookup (if search = "" then []
                  else (parseSearch caps search st).1) kv.1) kv.2 = true :=
              fun hx => hall (List.all_eq_true.mpr hx)
            push_neg at hnot
            obtain ⟨kv, hmem, hf⟩ := hnot
            exact ⟨kv, hmem, by simpa using hf⟩
          · intro _; trivial
        · intro hne
          rw [if_neg hall] at hne
          exact absurd rfl hne

/-- Witness for C2: with no matcher map and an empty query string,
`matchQuery` returns the empty mapping and leaves the module state alone. -/
theorem matchQuery_null_iff_witness :
    (matchQuery capsEx "" none st0).1 = some [] ∧
    (matchQuery capsEx "" none st0).2 = st0 := by
  have h := matchQuery_null_iff capsEx "" none st0
  exact ⟨by simpa using h.2.1 rfl, h.2.2.2 rfl⟩

/-! ### Claim C5: the one-way cache latch -/

/-- Claim C5: the compiled-pattern counter never exceeds the fixed ceiling of
10,000.  Below the ceiling every miss inserts the compiled pattern and
increments the counter; at (or beyond) the ceiling a miss still returns the
correctly compiled pattern but inserts nothing, the counter stays put, and a
later call with the same still-uncached pattern recompiles it afresh. -/
theorem compilePath_cache_latch (caps : Caps) (p : String)
    (o : CompileOptions) (st : ModuleState) :
    (st.cacheCount ≤ cacheLimit →
      (compilePath caps p o st).2.cacheCount ≤ cacheLimit) ∧
    (bucketLookup st p o = none → st.cacheCount < cacheLimit →
      bucketLookup (compilePath caps p o st).2 p o =
        some (compilePath caps p o st).1 ∧
      (compilePath caps p o st).2.cacheCount = st.cacheCount + 1) ∧
    (cacheLimit ≤ st.cacheCount →
      (compilePath caps p o st).2.cacheCount = st.cacheCount ∧
      (bucketLookup st p o = none →
        (compilePath caps p o st).1 =
          caps.pathToRegexp p (!o.partialFlag) o.strict ∧
        bucketLookup (compilePath caps p o st).2 p o = none ∧
        (compilePath caps p o (compilePath caps p o st).2).1 =
          caps.pathToRegexp p (!o.partialFlag) o.strict)) := by
  have hge : cacheLimit ≤ st.cacheCount → ¬ st.cacheCount < cacheLimit :=
    fun h1 h2 => absurd h2 (Nat.not_lt.mpr h1)
  refine ⟨?_, ?_, ?_⟩
  · intro hle
    cases hb : bucketLookup st p o with
    | some c => rw [compilePath_snd_hit caps p o st c hb]; exact hle
    | none =>
        by_cases h3 : st.cacheCount < cacheLimit
        · rw [compilePath_count_miss_lt caps p o st hb h3]
          exact Nat.succ_le_of_lt h3
        · rw [compilePath_count_ge caps p o st h3]; exact hle
  · intro hb h3
    refine ⟨?_, compilePath_count_miss_lt caps p o st hb h3⟩
    rw [compilePath_fst_miss caps p o st hb]
    exact bucketLookup_compilePath_self caps p o st hb h3
  · intro h1
    refine ⟨compilePath_count_ge caps p o st (hge h1), ?_⟩
    intro hb
    have hb2 := bucketLookup_compilePath_none_ge caps p o st hb (hge h1)
    exact ⟨compilePath_fst_miss caps p o st hb, hb2,
      compilePath_fst_miss caps p o (compilePath caps p o st).2 hb2⟩

/-- Witness for C5: at a counter already sitting at the ceiling, compiling a
fresh pattern leaves the counter unchanged and inserts nothing. -/
theorem compilePath_cache_latch_witness :
    (compilePath capsEx "/x" co0 stFull).2.cacheCount = stFull.cacheCount ∧
    bucketLookup (compilePath capsEx "/x" co0 stFull).2 "/x" co0 = none := by
  have h := (compilePath_cache_latch capsEx "/x" co0 stFull).2.2 (by decide)
  exact ⟨h.1, (h.2 rfl).2.1⟩

/-! ### Claim C6: cache hit on repeated compile below the ceiling -/

/-- Claim C6: while the counter is below the ceiling, two successive
`compilePath` calls with the same pattern and options return the same stored
compiled pattern: after the first call the bucket selected by the
(partial, strict) pair holds the returned entry, and the second call returns
exactly that stored entry while leaving the state unchanged (a pure cache
hit, not a recomputation). -/
theorem compilePath_idempotent_below_ceiling (caps : Caps) (p : String)
    (o : CompileOptions) (st : ModuleState)
    (h3 : st.cacheCount < cacheLimit) :
    (compilePath caps p o (compilePath caps p o st).2).1 =
      (compilePath caps p o st).1 ∧
    (compilePath caps p o (compilePath caps p o st).2).2 =
      (compilePath caps p o st).2 ∧
    bucketLookup (compilePath caps p o st).2 p o =
      some (compilePath caps p o st).1 := by
  cases hb : bucketLookup st p o with
  | some c =>
      have hs := compilePath_snd_hit caps p o st c hb
      have hf := compilePath_fst_hit caps p o st c hb
      refine ⟨?_, ?_, ?_⟩
      · rw [hs]
      · rw [hs]; exact compilePath_snd_hit caps p o st c hb
      · rw [hs, hf]; exact hb
  | none =>
      have hself := bucketLookup_compilePath_self caps p o st hb h3
      have hf := compilePath_fst_miss caps p o st hb
      have hf2 := compilePath_fst_hit caps p o (compilePath caps p o st).2 _
        hself
      have hs2 := compilePath_snd_hit caps p o (compilePath caps p o st).2 _
        hself
      exact ⟨by rw [hf2, hf], hs2, by rw [hf]; exact hself⟩

/-- Witness for C6: on the pristine state, compiling `/w` twice hits the
cache the second time and returns the same entry with no state change. -/
theorem compilePath_idempotent_witness :
    (compilePath capsEx "/w" co0 (compilePath capsEx "/w" co0 st0).2).1 =
      (compilePath capsEx "/w" co0 st0).1 ∧
    (compilePath capsEx "/w" co0 (compilePath capsEx "/w" co0 st0).2).2 =
      (compilePath capsEx "/w" co0 st0).2 := by
  have h := compilePath_idempotent_below_ceiling capsEx "/w" co0 st0 (by decide)
  exact ⟨h.1, h.2.1⟩

/-! ### Inversion of a successful `matchUrl` -/

theorem matchUrl_some_inv (caps : Caps) (l : String ⊕ Location)
    (matchers : Matchers) (options : MatchOptions) (st : ModuleState)
    (r : MatchResult) (h : (matchUrl caps l matchers options st).1 = some r) :
    ∃ m0 vs,
      ((compilePath caps matchers.path ⟨options.partialFlag, options.strict⟩
          st).1).re (resolveLoc caps l).pathname = some (m0, vs) ∧
      r.params = options.transform.map (fun tf => buildParams tf
        ((compilePath caps matchers.path
          ⟨options.partialFlag, options.strict⟩ st).1).keys vs) ∧
      r.matchedPath =
        (if matchers.path = "/" && m0 = "" then "/" else m0) ∧
      r.hash = (resolveLoc caps l).hash ∧
      r.partialFlag = options.partialFlag ∧
      r.matchers = matchers := by
  simp only [matchUrl, matchPath_fst, matchPath_snd] at h
  split at h
  · exact absurd h (by simp)
  · rename_i mtch hre
    split at h
    · exact absurd h (by simp)
    · rename_i query hq
      split at h
      · exact absurd h (by simp)
      · rename_i hguard
        simp only [Prod.fst] at h
        cases h
        exact ⟨mtch.1, mtch.2, hre, rfl, rfl, rfl, rfl, rfl⟩

/-! ### Claim C7: matched-path normalization for pattern `/` -/

/-- Claim C7: on a successful match whose descriptor path is exactly `"/"`,
the returned `matchedPath` is never the empty string, and whenever the raw
match's index 0 is the empty string the result reports `matchedPath = "/"`. -/
theorem matchUrl_root_matchedPath (caps : Caps) (l : String ⊕ Location)
    (matchers : Matchers) (options : MatchOptions) (st : ModuleState)
    (r : MatchResult) (hroot : matchers.path = "/")
    (h : (matchUrl caps l matchers options st).1 = some r) :
    r.matchedPath ≠ "" ∧
    ∀ vs, ((compilePath caps matchers.path ⟨options.partialFlag,
        options.strict⟩ st).1).re (resolveLoc caps l).pathname =
        some ("", vs) → r.matchedPath = "/" := by
  obtain ⟨m0, vs, hre, _, hmp, _⟩ :=
    matchUrl_some_inv caps l matchers options st r h
  constructor
  · rw [hmp]
    by_cases hm : m0 = ""
    · subst hm; simp [hroot]
    · simp [hm]
  · intro vs' hre'
    rw [hre] at hre'
    have hm : m0 = "" := (Prod.mk.injEq .. ▸ (Option.some.injEq .. ▸ hre')).1
    rw [hmp, hroot, hm]
    simp

/-- Witness for C7: matching `/` (whose compiled pattern yields an
empty-string match) reports `matchedPath = "/"`, not `""`. -/
theorem matchUrl_root_matchedPath_witness :
    (matchUrl capsSlash (Sum.inr ⟨"/", "", ""⟩) ⟨"/", none, none⟩ mo0
      st0).1 = some ⟨none, [], "", "/", ⟨"/", none, none⟩, false⟩ ∧
    (⟨none, [], "", "/", ⟨"/", none, none⟩, false⟩ :
      MatchResult).matchedPath ≠ "" := by
  refine ⟨rfl, ?_⟩
  exact (matchUrl_root_matchedPath capsSlash (Sum.inr ⟨"/", "", ""⟩)
    ⟨"/", none, none⟩ mo0 st0 ⟨none, [], "", "/", ⟨"/", none, none⟩, false⟩
    rfl rfl).1

/-! ### Claim C8: `params` is built exactly when a transform is supplied -/

/-- Claim C8: on a successful match, `params` is `undefined` when no
transform was supplied, and otherwise is exactly the mapping built by
applying the transform to each captured value paired positionally with its
parameter name from the compiled pattern's keys. -/
theorem matchUrl_params_iff_transform (caps : Caps) (l : String ⊕ Location)
    (matchers : Matchers) (options : MatchOptions) (st : ModuleState)
    (r : MatchResult)
    (h : (matchUrl caps l matchers options st).1 = some r) :
    (options.transform = none → r.params = none) ∧
    (∀ tf, options.transform = some tf →
      ∃ m0 vs, ((compilePath caps matchers.path ⟨options.partialFlag,
          options.strict⟩ st).1).re (resolveLoc caps l).pathname =
          some (m0, vs) ∧
        r.params = some (buildParams tf ((compilePath caps matchers.path
          ⟨options.partialFlag, options.strict⟩ st).1).keys vs)) := by
  obtain ⟨m0, vs, hre, hparams, _⟩ :=
    matchUrl_some_inv caps l matchers options st r h
  constructor
  · intro hn; rw [hparams, hn]; rfl
  · intro tf htf
    exact ⟨m0, vs, hre, by rw [hparams, htf]; rfl⟩

/-- Witness for C8: with a transform supplied, `params` holds the transformed
capture; without one, `params` stays unset. -/
theorem matchUrl_params_iff_transform_witness :
    (matchUrl capsKey (Sum.inr ⟨"go", "", ""⟩) ⟨"/:id", none, none⟩
      ⟨false, false, some (fun v k => k ++ (v.getD ""))⟩ st0).1 =
      some ⟨some [("id", "idgo")], [], "", "go", ⟨"/:id", none, none⟩,
        false⟩ ∧
    (matchUrl capsKey (Sum.inr ⟨"go", "", ""⟩) ⟨"/:id", none, none⟩ mo0
      st0).1 = some ⟨none, [], "", "go", ⟨"/:id", none, none⟩, false⟩ ∧
    (⟨none, [], "", "go", ⟨"/:id", none, none⟩, false⟩ :
      MatchResult).params = none := by
  refine ⟨rfl, rfl, ?_⟩
  exact (matchUrl_params_iff_transform capsKey (Sum.inr ⟨"go", "", ""⟩)
    ⟨"/:id", none, none⟩ mo0 st0
    ⟨none, [], "", "go", ⟨"/:id", none, none⟩, false⟩ rfl).1 rfl

/-! ### Valid states: cache entries agree with the capabilities -/

theorem validState_of_empty (caps : Caps) (n : Nat) :
    ValidState caps ⟨[], [], n⟩ := by
  constructor
  · intro s q hq; simp at hq
  · intro o p c hc; simp [bucketLookup] at hc

theorem compilePath_fst_valid (caps : Caps) (p : String) (o : CompileOptions)
    (st : ModuleState) (h : ValidState caps st) :
    (compilePath caps p o st).1 =
      caps.pathToRegexp p (!o.partialFlag) o.strict := by
  cases hb : bucketLookup st p o with
  | some c => rw [compilePath_fst_hit caps p o st c hb]; exact h.2 o p c hb
  | none => exact compilePath_fst_miss caps p o st hb

theorem parseSearch_fst_valid (caps : Caps) (s : String) (st : ModuleState)
    (h : ValidState caps st) :
    (parseSearch caps s st).1 = caps.qsParse s := by
  unfold parseSearch
  cases hq : alookup st.queries s with
  | some q => simpa using h.1 s q hq
  | none => simp [hq]

theorem validState_compilePath (caps : Caps) (p : String) (o : CompileOptions)
    (st : ModuleState) (h : ValidState caps st) :
    ValidState caps (compilePath caps p o st).2 := by
  constructor
  · intro s q hq
    rw [compilePath_snd_queries] at hq
    exact h.1 s q hq
  · intro o' p' c hc
    by_cases hcase : p' = p ∧ o' = o
    · obtain ⟨hp, ho⟩ := hcase
      subst hp; subst ho
      cases hb : bucketLookup st p' o' with
      | some c0 =>
          rw [compilePath_snd_hit caps p' o' st c0 hb] at hc
          exact h.2 o' p' c hc
      | none =>
          by_cases h3 : st.cacheCount < cacheLimit
          · rw [bucketLookup_compilePath_self caps p' o' st hb h3] at hc
            cases hc; rfl
          · rw [bucketLookup_compilePath_none_ge caps p' o' st hb h3] at hc
            cases hc
    · rw [bucketLookup_compilePath_frame caps p o st p' o' hcase] at hc
      exact h.2 o' p' c hc

theorem validState_parseSearch (caps : Caps) (s : String) (st : ModuleState)
    (h : ValidState caps st) :
    ValidState caps (parseSearch caps s st).2 := by
  constructor
  · intro s' q hq
    unfold parseSearch at hq
    cases hl : alookup st.queries s with
    | some q0 => rw [hl] at hq; exact h.1 s' q hq
    | none =>
        rw [hl] at hq
        simp only at hq
        rw [alookup_aset] at hq
        by_cases hs : s = s'
        · rw [if_pos hs] at hq
          cases hq
          rw [hs]
        · rw [if_neg hs] at hq
          exact h.1 s' q hq
  · intro o' p' c hc
    have hpc : bucketLookup (parseSearch caps s st).2 p' o' =
        bucketLookup st p' o' := by
      unfold bucketLookup
      rw [parseSearch_snd_patternCache]
    rw [hpc] at hc
    exact h.2 o' p' c hc

theorem validState_matchQuery (caps : Caps) (s : String)
    (m : Option (List (String × ValueMatcher))) (st : ModuleState)
    (h : ValidState caps st) :
    ValidState caps (matchQuery caps s m st).2 := by
  rw [matchQuery_snd]
  by_cases hs : s = ""
  · rw [if_pos hs]; exact h
  · rw [if_neg hs]; exact validState_parseSearch caps s st h

/-- The state `matchUrl` leaves behind: the compile step's state on path
failure, otherwise additionally the query-match step's state. -/
theorem matchUrl_snd (caps : Caps) (l : String ⊕ Location)
    (matchers : Matchers) (options : MatchOptions) (st : ModuleState) :
    (matchUrl caps l matchers options st).2 =
      match ((compilePath caps matchers.path
          ⟨options.partialFlag, options.strict⟩ st).1).re
          (resolveLoc caps l).pathname with
      | none => (compilePath caps matchers.path
          ⟨options.partialFlag, options.strict⟩ st).2
      | some _ => (matchQuery caps (resolveLoc caps l).search matchers.query
          (compilePath caps matchers.path
            ⟨options.partialFlag, options.strict⟩ st).2).2 := by
  simp only [matchUrl, matchPath_fst, matchPath_snd]
  cases hre : ((compilePath caps matchers.path
      ⟨options.partialFlag, options.strict⟩ st).1).re
      (resolveLoc caps l).pathname with
  | none => rfl
  | some mtch =>
      cases hq : (matchQuery caps (resolveLoc caps l).search matchers.query
          (compilePath caps matchers.path
            ⟨options.partialFlag, options.strict⟩ st).2).1 with
      | none => rfl
      | some query => simp only; split <;> rfl

theorem validState_matchUrl (caps : Caps) (l : String ⊕ Location)
    (matchers : Matchers) (options : MatchOptions) (st : ModuleState)
    (h : ValidState caps st) :
    ValidState caps (matchUrl caps l matchers options st).2 := by
  rw [matchUrl_snd]
  cases hre : ((compilePath caps matchers.path
      ⟨options.partialFlag, options.strict⟩ st).1).re
      (resolveLoc caps l).pathname with
  | none => exact validState_compilePath caps matchers.path _ st h
  | some mtch =>
      exact validState_matchQuery caps (resolveLoc caps l).search
        matchers.query _ (validState_compilePath caps matchers.path _ st h)

/-! ### Claim C9: cache state never changes the observable result -/

/-- Claim C9: two `matchUrl` runs with identical arguments over any two valid
cache states (in particular the states before and after arbitrary other
calls) return equal results: cache and counter state influence performance
only, never the value; and validity is preserved, so every reachable state
again yields the same results. -/
theorem matchUrl_cache_independent (caps : Caps) (l : String ⊕ Location)
    (matchers : Matchers) (options : MatchOptions) (st1 st2 : ModuleState)
    (h1 : ValidState caps st1) (h2 : ValidState caps st2) :
    (matchUrl caps l matchers options st1).1 =
      (matchUrl caps l matchers options st2).1 ∧
    ValidState caps (matchUrl caps l matchers options st1).2 := by
  refine ⟨?_, validState_matchUrl caps l matchers options st1 h1⟩
  simp only [matchUrl, matchPath_fst, matchPath_snd]
  rw [compilePath_fst_valid caps matchers.path
      ⟨options.partialFlag, options.strict⟩ st1 h1,
    compilePath_fst_valid caps matchers.path
      ⟨options.partialFlag, options.strict⟩ st2 h2]
  cases hre : (caps.pathToRegexp matchers.path (!options.partialFlag)
      options.strict).re (resolveLoc caps l).pathname with
  | none => rfl
  | some mtch =>
      have hv1 := validState_compilePath caps matchers.path
        ⟨options.partialFlag, options.strict⟩ st1 h1
      have hv2 := validState_compilePath caps matchers.path
        ⟨options.partialFlag, options.strict⟩ st2 h2
      have hmq : ∀ st' : ModuleState, ValidState caps st' →
          (matchQuery caps (resolveLoc caps l).search matchers.query st').1 =
          (matchQuery caps (resolveLoc caps l).search matchers.query
            ⟨[], [], 0⟩).1 := by
        intro st' hst
        rw [matchQuery_fst, matchQuery_fst,
          parseSearch_fst_valid caps _ st' hst,
          parseSearch_fst_valid caps _ ⟨[], [], 0⟩ (validState_of_empty caps 0)]
      rw [hmq (compilePath caps matchers.path
          ⟨options.partialFlag, options.strict⟩ st1).2 hv1,
        hmq (compilePath caps matchers.path
          ⟨options.partialFlag, options.strict⟩ st2).2 hv2]
      cases hq : (matchQuery caps (resolveLoc caps l).search matchers.query
          (⟨[], [], 0⟩ : ModuleState)).1 with
      | none => rfl
      | some query => simp only [apply_ite Prod.fst]

/-- Witness for C9: the same match run on the pristine state and on a state
whose counter already sits at the ceiling returns the same result. -/
theorem matchUrl_cache_independent_witness :
    (matchUrl capsEx (Sum.inr ⟨"/a", "x=1", "h"⟩) ⟨"/a", none, none⟩ mo0
      st0).1 =
    (matchUrl capsEx (Sum.inr ⟨"/a", "x=1", "h"⟩) ⟨"/a", none, none⟩ mo0
      stFull).1 :=
  (matchUrl_cache_independent capsEx (Sum.inr ⟨"/a", "x=1", "h"⟩)
    ⟨"/a", none, none⟩ mo0 st0 stFull (validState_of_empty capsEx 0)
    (validState_of_empty capsEx cacheLimit)).1

/-! ### Claim C10: the frame of a path-failing `matchUrl` call -/

/-- Claim C10: even when `matchUrl` returns null because the path fails, the
call still mutates the shared pattern-cache state: the final state is exactly
the compile step's state — so on a fresh pattern below the ceiling the
compiled pattern is inserted and the counter increments — while the
query-parse cache is untouched. -/
theorem matchUrl_path_fail_frame (caps : Caps) (l : String ⊕ Location)
    (matchers : Matchers) (options : MatchOptions) (st : ModuleState)
    (hfail : ((compilePath caps matchers.path
        ⟨options.partialFlag, options.strict⟩ st).1).re
        (resolveLoc caps l).pathname = none) :
    (matchUrl caps l matchers options st).1 = none ∧
    (matchUrl caps l matchers options st).2 =
      (compilePath caps matchers.path
        ⟨options.partialFlag, options.strict⟩ st).2 ∧
    (matchUrl caps l matchers options st).2.queries = st.queries ∧
    (bucketLookup st matchers.path ⟨options.partialFlag, options.strict⟩ =
        none → st.cacheCount < cacheLimit →
      bucketLookup (matchUrl caps l matchers options st).2 matchers.path
          ⟨options.partialFlag, options.strict⟩ =
        some ((compilePath caps matchers.path
          ⟨options.partialFlag, options.strict⟩ st).1) ∧
      (matchUrl caps l matchers options st).2.cacheCount =
        st.cacheCount + 1) := by
  have hsnd : (matchUrl caps l matchers options st).2 =
      (compilePath caps matchers.path
        ⟨options.partialFlag, options.strict⟩ st).2 := by
    rw [matchUrl_snd, hfail]
  refine ⟨(matchUrl_path_fail_fast caps l matchers options st hfail).1,
    hsnd, ?_, ?_⟩
  · rw [hsnd]; exact compilePath_snd_queries caps matchers.path _ st
  · intro hb h3
    rw [hsnd, compilePath_fst_miss caps matchers.path _ st hb]
    exact ⟨bucketLookup_compilePath_self caps matchers.path _ st hb h3,
      compilePath_count_miss_lt caps matchers.path _ st hb h3⟩

/-- Witness for C10: a failing match of `/a` against path `/b` on the
pristine state still inserts the compiled `/a` pattern and bumps the counter
to 1, while the query cache stays empty. -/
theorem matchUrl_path_fail_frame_witness :
    (matchUrl capsEx (Sum.inr ⟨"/b", "x=1", "h"⟩) ⟨"/a", none, none⟩ mo0
      st0).1 = none ∧
    bucketLookup (matchUrl capsEx (Sum.inr ⟨"/b", "x=1", "h"⟩)
        ⟨"/a", none, none⟩ mo0 st0).2 "/a" ⟨false, false⟩ =
      some ((compilePath capsEx "/a" ⟨false, false⟩ st0).1) ∧
    (matchUrl capsEx (Sum.inr ⟨"/b", "x=1", "h"⟩) ⟨"/a", none, none⟩ mo0
      st0).2.cacheCount = st0.cacheCount + 1 := by
  have h := matchUrl_path_fail_frame capsEx (Sum.inr ⟨"/b", "x=1", "h"⟩)
    ⟨"/a", none, none⟩ mo0 st0 rfl
  exact ⟨h.1, (h.2.2.2 rfl (by decide)).1, (h.2.2.2 rfl (by decide)).2⟩

end MatchUrl
